import Mathlib

/-!
# In-memory REST store (users and products)

A shallow embedding of the request handlers of `main.go` and of the state they share,
followed by the properties of the store that the specification states.

Modelling conventions.

* The four package-level variables `users`, `products`, `nextUserID`, `nextProductID`
  form the `Store`.  A Go map is modelled by its lookup function: `none` means that the
  key is absent.
* Every handler reads and writes the store only while it holds the mutex of the
  collection, in a single critical section, so a handler is one atomic step
  `Store → Store × Response`.
* What the handler receives from the libraries is an argument of the step:
  the outcome of `strconv.Atoi` on the path variable (`none` when it reports an error),
  the outcome of `json.Decode` on the body (`none` when it reports an error, otherwise
  the decoded struct, in which an absent member keeps Go's zero value), and the value of
  `time.Now()`.
* Go's `int` is modelled by `Int` and `nextUserID++` by `+ 1`: the counters start at 3
  and 4 and grow by at most one per request (`run_counters_le`), so the machine increment
  agrees with `+ 1` on every run shorter than the range of `int`.
* A `float64` price is modelled by a rational: the decoder never produces a NaN or an
  infinity, the handlers only copy prices and compare them with 0, and a decimal literal
  of `initData` has the sign of the double nearest to it.
-/

namespace RestStore

/-- Instant reported by `time.Now()`; only stored and copied. -/
abbrev Time := Int

/-- Go struct `User`. -/
structure User where
  ID : Int
  Name : String
  Email : String
  CreatedAt : Time
deriving DecidableEq

/-- Go struct `Product`. -/
structure Product where
  ID : Int
  Name : String
  Price : ℚ
  Stock : Int
deriving DecidableEq

/-- Go struct `ErrorResponse`. -/
structure ErrorResponse where
  Error : String
  Code : Int
  Message : String
deriving DecidableEq

/-- What a handler encodes into the response body. -/
inductive Body where
  | user (u : User)
  | product (p : Product)
  | error (e : ErrorResponse)
  | empty
deriving DecidableEq

/-- Status code and body written to the `http.ResponseWriter`. -/
structure Response where
  status : Int
  body : Body
deriving DecidableEq

/-- The package-level variables of `main.go`. -/
structure Store where
  users : Int → Option User
  products : Int → Option Product
  nextUserID : Int
  nextProductID : Int

def StatusOK : Int := 200
def StatusCreated : Int := 201
def StatusNoContent : Int := 204
def StatusBadRequest : Int := 400
def StatusNotFound : Int := 404
def StatusInternalServerError : Int := 500
def StatusServiceUnavailable : Int := 503

/-- Library function `http.StatusText`, on the codes that `sendError` is called with. -/
def StatusText (code : Int) : String :=
  if code = 400 then "Bad Request"
  else if code = 404 then "Not Found"
  else if code = 500 then "Internal Server Error"
  else if code = 503 then "Service Unavailable"
  else ""

/-- Helper `sendError`. -/
def sendError (message : String) (code : Int) : Response :=
  { status := code,
    body := Body.error { Error := StatusText code, Code := code, Message := message } }

/-- Initial values of the package-level variables. -/
def initial : Store :=
  { users := fun _ => none,
    products := fun _ => none,
    nextUserID := 1,
    nextProductID := 1 }

/-- Function `initData`; `t1` and `t2` are the two values of `time.Now()`. -/
def initData (s : Store) (t1 t2 : Time) : Store :=
  let users := Function.update s.users 1
    (some { ID := 1, Name := "Mario Rossi", Email := "mario@example.com", CreatedAt := t1 })
  let users := Function.update users 2
    (some { ID := 2, Name := "Laura Bianchi", Email := "laura@example.com", CreatedAt := t2 })
  let products := Function.update s.products 1
    (some { ID := 1, Name := "Laptop", Price := 999.99, Stock := 10 })
  let products := Function.update products 2
    (some { ID := 2, Name := "Mouse", Price := 29.99, Stock := 50 })
  let products := Function.update products 3
    (some { ID := 3, Name := "Keyboard", Price := 79.99, Stock := 30 })
  { users := users, products := products, nextUserID := 3, nextProductID := 4 }

/-- The store once `main` has called `initData`. -/
def seeded (t1 t2 : Time) : Store := initData initial t1 t2

/-- Handler `getUser`. -/
def getUser (s : Store) (idArg : Option Int) : Response :=
  match idArg with
  | none => sendError "Invalid user ID" StatusBadRequest
  | some id =>
    match s.users id with
    | none => sendError "User not found" StatusNotFound
    | some user => { status := StatusOK, body := Body.user user }

/-- Handler `createUser`. -/
def createUser (s : Store) (decoded : Option User) (now : Time) : Store × Response :=
  match decoded with
  | none => (s, sendError "Invalid request body" StatusBadRequest)
  | some user =>
    if user.Name = "" ∨ user.Email = "" then
      (s, sendError "Name and email are required" StatusBadRequest)
    else
      let user := { user with ID := s.nextUserID, CreatedAt := now }
      ({ s with users := Function.update s.users user.ID (some user),
                nextUserID := s.nextUserID + 1 },
       { status := StatusCreated, body := Body.user user })

/-- Handler `updateUser`. -/
def updateUser (s : Store) (idArg : Option Int) (decoded : Option User) : Store × Response :=
  match idArg with
  | none => (s, sendError "Invalid user ID" StatusBadRequest)
  | some id =>
    match s.users id with
    | none => (s, sendError "User not found" StatusNotFound)
    | some user =>
      match decoded with
      | none => (s, sendError "Invalid request body" StatusBadRequest)
      | some updateData =>
        let user := if updateData.Name ≠ "" then { user with Name := updateData.Name } else user
        let user := if updateData.Email ≠ "" then { user with Email := updateData.Email } else user
        ({ s with users := Function.update s.users id (some user) },
         { status := StatusOK, body := Body.user user })

/-- Handler `deleteUser`. -/
def deleteUser (s : Store) (idArg : Option Int) : Store × Response :=
  match idArg with
  | none => (s, sendError "Invalid user ID" StatusBadRequest)
  | some id =>
    match s.users id with
    | none => (s, sendError "User not found" StatusNotFound)
    | some _ =>
      ({ s with users := Function.update s.users id none },
       { status := StatusNoContent, body := Body.empty })

/-- Handler `getProduct`. -/
def getProduct (s : Store) (idArg : Option Int) : Response :=
  match idArg with
  | none => sendError "Invalid product ID" StatusBadRequest
  | some id =>
    match s.products id with
    | none => sendError "Product not found" StatusNotFound
    | some product => { status := StatusOK, body := Body.product product }

/-- Handler `createProduct`. -/
def createProduct (s : Store) (decoded : Option Product) : Store × Response :=
  match decoded with
  | none => (s, sendError "Invalid request body" StatusBadRequest)
  | some product =>
    if product.Name = "" ∨ product.Price ≤ 0 then
      (s, sendError "Name and valid price are required" StatusBadRequest)
    else
      let product := { product with ID := s.nextProductID }
      ({ s with products := Function.update s.products product.ID (some product),
                nextProductID := s.nextProductID + 1 },
       { status := StatusCreated, body := Body.product product })

/-- Handler `updateProduct`. -/
def updateProduct (s : Store) (idArg : Option Int) (decoded : Option Product) :
    Store × Response :=
  match idArg with
  | none => (s, sendError "Invalid product ID" StatusBadRequest)
  | some id =>
    match s.products id with
    | none => (s, sendError "Product not found" StatusNotFound)
    | some product =>
      match decoded with
      | none => (s, sendError "Invalid request body" StatusBadRequest)
      | some updateData =>
        let product :=
          if updateData.Name ≠ "" then { product with Name := updateData.Name } else product
        let product :=
          if updateData.Price > 0 then { product with Price := updateData.Price } else product
        let product :=
          if updateData.Stock ≥ 0 then { product with Stock := updateData.Stock } else product
        ({ s with products := Function.update s.products id (some product) },
         { status := StatusOK, body := Body.product product })

/-- A request routed by `main` to one of the handlers above, with what the libraries
hand to the handler.  The remaining routes never write the store. -/
inductive Request where
  | getUser (idArg : Option Int)
  | createUser (decoded : Option User) (now : Time)
  | updateUser (idArg : Option Int) (decoded : Option User)
  | deleteUser (idArg : Option Int)
  | getProduct (idArg : Option Int)
  | createProduct (decoded : Option Product)
  | updateProduct (idArg : Option Int) (decoded : Option Product)

/-- Serve one request. -/
def step (s : Store) : Request → Store × Response
  | Request.getUser idArg => (s, getUser s idArg)
  | Request.createUser decoded now => createUser s decoded now
  | Request.updateUser idArg decoded => updateUser s idArg decoded
  | Request.deleteUser idArg => deleteUser s idArg
  | Request.getProduct idArg => (s, getProduct s idArg)
  | Request.createProduct decoded => createProduct s decoded
  | Request.updateProduct idArg decoded => updateProduct s idArg decoded

/-- Serve a sequence of requests, one after the other. -/
def run (s : Store) : List Request → Store
  | [] => s
  | r :: rs => run (step s r).1 rs

/-- The responses to a sequence of requests, in order. -/
def responses (s : Store) : List Request → List Response
  | [] => []
  | r :: rs => (step s r).2 :: responses (step s r).1 rs

/-- The store can be in state `s` after `initData` and some sequence of requests. -/
def Reachable (s : Store) : Prop :=
  ∃ (t1 t2 : Time) (rs : List Request), run (seeded t1 t2) rs = s

/-- Identifier carried by the response to an accepted `createUser`. -/
def createdUserID (r : Request) (resp : Response) : Option Int :=
  match r, resp.body with
  | Request.createUser _ _, Body.user u =>
    if resp.status = StatusCreated then some u.ID else none
  | _, _ => none

/-- Identifier carried by the response to an accepted `createProduct`. -/
def createdProductID (r : Request) (resp : Response) : Option Int :=
  match r, resp.body with
  | Request.createProduct _, Body.product p =>
    if resp.status = StatusCreated then some p.ID else none
  | _, _ => none

/-- User identifiers handed out along a sequence of requests, oldest first. -/
def createdUserIDs (s : Store) (rs : List Request) : List Int :=
  (rs.zip (responses s rs)).filterMap (fun p => createdUserID p.1 p.2)

/-- Product identifiers handed out along a sequence of requests, oldest first. -/
def createdProductIDs (s : Store) (rs : List Request) : List Int :=
  (rs.zip (responses s rs)).filterMap (fun p => createdProductID p.1 p.2)

/-- Facts that hold of the store after `initData` and any sequence of requests. -/
structure Inv (s : Store) : Prop where
  userKey : ∀ k u, s.users k = some u → u.ID = k ∧ 1 ≤ k ∧ k < s.nextUserID
  userFields : ∀ k u, s.users k = some u → u.Name ≠ "" ∧ u.Email ≠ ""
  userNext : 3 ≤ s.nextUserID
  productKey : ∀ k p, s.products k = some p → p.ID = k ∧ 1 ≤ k ∧ k < s.nextProductID
  productFields : ∀ k p, s.products k = some p → p.Name ≠ "" ∧ 0 < p.Price
  productNext : 4 ≤ s.nextProductID

/-! ## Shared lemmas -/

theorem seeded_inv (t1 t2 : Time) : Inv (seeded t1 t2) := by
  refine ⟨?_, ?_, ?_, ?_, ?_, ?_⟩
  · intro k u h
    simp only [seeded, initData, initial, Function.update_apply] at h ⊢
    split_ifs at h with h2 h1 <;> simp at h <;> subst h <;> simp [*]
  · intro k u h
    simp only [seeded, initData, initial, Function.update_apply] at h ⊢
    split_ifs at h with h2 h1 <;> simp at h <;> subst h <;> simp
  · simp [seeded, initData]
  · intro k p h
    simp only [seeded, initData, initial, Function.update_apply] at h ⊢
    split_ifs at h with h3 h2 h1 <;> simp at h <;> subst h <;> simp [*]
  · intro k p h
    simp only [seeded, initData, initial, Function.update_apply] at h ⊢
    split_ifs at h with h3 h2 h1 <;> simp at h <;> subst h <;> exact ⟨by decide, by norm_num⟩
  · simp [seeded, initData]

theorem createUser_inv (s : Store) (decoded : Option User) (now : Time) (h : Inv s) :
    Inv (createUser s decoded now).1 := by
  unfold createUser
  split
  · exact h
  · split_ifs with hv
    · exact h
    · rw [not_or] at hv
      refine ⟨?_, ?_, ?_, h.productKey, h.productFields, h.productNext⟩
      · intro k u hk
        simp only [Function.update_apply] at hk
        have h3 := h.userNext
        split_ifs at hk with hkk
        · simp only [Option.some.injEq] at hk
          subst hk
          subst hkk
          simp only [true_and]
          constructor <;> omega
        · have := h.userKey k u hk
          simp only
          omega
      · intro k u hk
        simp only [Function.update_apply] at hk
        split_ifs at hk with hkk
        · simp only [Option.some.injEq] at hk
          subst hk
          exact hv
        · exact h.userFields k u hk
      · have := h.userNext
        simp only
        omega

theorem updateUser_inv (s : Store) (idArg : Option Int) (decoded : Option User) (h : Inv s) :
    Inv (updateUser s idArg decoded).1 := by
  unfold updateUser
  split
  · exact h
  · rename_i id
    split
    · exact h
    · rename_i user hu
      split
      · exact h
      · rename_i updateData
        have hk0 := h.userKey id user hu
        have hf0 := h.userFields id user hu
        refine ⟨?_, ?_, h.userNext, h.productKey, h.productFields, h.productNext⟩
        · intro k u hk
          by_cases hkk : k = id
          · subst hkk
            simp only [Function.update_same, Option.some.injEq] at hk
            subst hk
            split_ifs <;> exact hk0
          · simp only [Function.update_noteq hkk] at hk
            exact h.userKey k u hk
        · intro k u hk
          by_cases hkk : k = id
          · subst hkk
            simp only [Function.update_same, Option.some.injEq] at hk
            subst hk
            split_ifs <;> simp_all
          · simp only [Function.update_noteq hkk] at hk
            exact h.userFields k u hk

theorem deleteUser_inv (s : Store) (idArg : Option Int) (h : Inv s) :
    Inv (deleteUser s idArg).1 := by
  unfold deleteUser
  split
  · exact h
  · split
    · exact h
    · refine ⟨?_, ?_, h.userNext, h.productKey, h.productFields, h.productNext⟩
      · intro k u hk
        simp only [Function.update_apply] at hk
        split_ifs at hk
        exact h.userKey k u hk
      · intro k u hk
        simp only [Function.update_apply] at hk
        split_ifs at hk
        exact h.userFields k u hk

theorem createProduct_inv (s : Store) (decoded : Option Product) (h : Inv s) :
    Inv (createProduct s decoded).1 := by
  unfold createProduct
  split
  · exact h
  · split_ifs with hv
    · exact h
    · rw [not_or, not_le] at hv
      refine ⟨h.userKey, h.userFields, h.userNext, ?_, ?_, ?_⟩
      · intro k p hk
        simp only [Function.update_apply] at hk
        have h4 := h.productNext
        split_ifs at hk with hkk
        · simp only [Option.some.injEq] at hk
          subst hk
          subst hkk
          simp only [true_and]
          constructor <;> omega
        · have := h.productKey k p hk
          simp only
          omega
      · intro k p hk
        simp only [Function.update_apply] at hk
        split_ifs at hk with hkk
        · simp only [Option.some.injEq] at hk
          subst hk
          exact hv
        · exact h.productFields k p hk
      · have := h.productNext
        simp only
        omega

theorem updateProduct_inv (s : Store) (idArg : Option Int) (decoded : Option Product)
    (h : Inv s) : Inv (updateProduct s idArg decoded).1 := by
  unfold updateProduct
  split
  · exact h
  · rename_i id
    split
    · exact h
    · rename_i product hp
      split
      · exact h
      · rename_i updateData
        have hk0 := h.productKey id product hp
        have hf0 := h.productFields id product hp
        refine ⟨h.userKey, h.userFields, h.userNext, ?_, ?_, h.productNext⟩
        · intro k p hk
          by_cases hkk : k = id
          · subst hkk
            simp only [Function.update_same, Option.some.injEq] at hk
            subst hk
            split_ifs <;> exact hk0
          · simp only [Function.update_noteq hkk] at hk
            exact h.productKey k p hk
        · intro k p hk
          by_cases hkk : k = id
          · subst hkk
            simp only [Function.update_same, Option.some.injEq] at hk
            subst hk
            split_ifs <;> simp_all
          · simp only [Function.update_noteq hkk] at hk
            exact h.productFields k p hk

theorem step_inv (s : Store) (r : Request) (h : Inv s) : Inv (step s r).1 := by
  cases r with
  | getUser idArg => exact h
  | createUser decoded now => exact createUser_inv s decoded now h
  | updateUser idArg decoded => exact updateUser_inv s idArg decoded h
  | deleteUser idArg => exact deleteUser_inv s idArg h
  | getProduct idArg => exact h
  | createProduct decoded => exact createProduct_inv s decoded h
  | updateProduct idArg decoded => exact updateProduct_inv s idArg decoded h

theorem run_inv (rs : List Request) (s : Store) (h : Inv s) : Inv (run s rs) := by
  induction rs generalizing s with
  | nil => exact h
  | cons r rs ih => exact ih (step s r).1 (step_inv s r h)

theorem reachable_inv (s : Store) (h : Reachable s) : Inv s := by
  obtain ⟨t1, t2, rs, rfl⟩ := h
  exact run_inv rs _ (seeded_inv t1 t2)

theorem createdUserIDs_cons (s : Store) (r : Request) (rs : List Request) :
    createdUserIDs s (r :: rs) =
      (createdUserID r (step s r).2).toList ++ createdUserIDs (step s r).1 rs := by
  unfold createdUserIDs
  simp only [responses, List.zip_cons_cons, List.filterMap_cons]
  cases createdUserID r (step s r).2 <;> simp

theorem createdProductIDs_cons (s : Store) (r : Request) (rs : List Request) :
    createdProductIDs s (r :: rs) =
      (createdProductID r (step s r).2).toList ++ createdProductIDs (step s r).1 rs := by
  unfold createdProductIDs
  simp only [responses, List.zip_cons_cons, List.filterMap_cons]
  cases createdProductID r (step s r).2 <;> simp

theorem updateUser_counters (s : Store) (idArg : Option Int) (decoded : Option User) :
    (updateUser s idArg decoded).1.nextUserID = s.nextUserID ∧
      (updateUser s idArg decoded).1.nextProductID = s.nextProductID ∧
      (updateUser s idArg decoded).1.products = s.products := by
  cases idArg with
  | none => simp [updateUser]
  | some id =>
    cases hu : s.users id with
    | none => simp [updateUser, hu]
    | some user => cases decoded <;> simp [updateUser, hu]

theorem deleteUser_counters (s : Store) (idArg : Option Int) :
    (deleteUser s idArg).1.nextUserID = s.nextUserID ∧
      (deleteUser s idArg).1.nextProductID = s.nextProductID ∧
      (deleteUser s idArg).1.products = s.products := by
  cases idArg with
  | none => simp [deleteUser]
  | some id => cases hu : s.users id <;> simp [deleteUser, hu]

theorem updateProduct_counters (s : Store) (idArg : Option Int) (decoded : Option Product) :
    (updateProduct s idArg decoded).1.nextUserID = s.nextUserID ∧
      (updateProduct s idArg decoded).1.nextProductID = s.nextProductID ∧
      (updateProduct s idArg decoded).1.users = s.users := by
  cases idArg with
  | none => simp [updateProduct]
  | some id =>
    cases hp : s.products id with
    | none => simp [updateProduct, hp]
    | some product => cases decoded <;> simp [updateProduct, hp]

theorem createUser_counters (s : Store) (decoded : Option User) (now : Time) :
    s.nextUserID ≤ (createUser s decoded now).1.nextUserID ∧
      (createUser s decoded now).1.nextProductID = s.nextProductID ∧
      (createUser s decoded now).1.products = s.products := by
  cases decoded with
  | none => simp [createUser]
  | some user =>
    by_cases hv : user.Name = "" ∨ user.Email = "" <;> simp [createUser, hv]

theorem createProduct_counters (s : Store) (decoded : Option Product) :
    s.nextProductID ≤ (createProduct s decoded).1.nextProductID ∧
      (createProduct s decoded).1.nextUserID = s.nextUserID ∧
      (createProduct s decoded).1.users = s.users := by
  cases decoded with
  | none => simp [createProduct]
  | some product =>
    by_cases hv : product.Name = "" ∨ product.Price ≤ 0 <;> simp [createProduct, hv]

theorem step_nextUserID_le (s : Store) (r : Request) :
    s.nextUserID ≤ (step s r).1.nextUserID := by
  cases r with
  | getUser idArg => exact le_refl _
  | createUser decoded now => exact (createUser_counters s decoded now).1
  | updateUser idArg decoded => exact le_of_eq (updateUser_counters s idArg decoded).1.symm
  | deleteUser idArg => exact le_of_eq (deleteUser_counters s idArg).1.symm
  | getProduct idArg => exact le_refl _
  | createProduct decoded => exact le_of_eq (createProduct_counters s decoded).2.1.symm
  | updateProduct idArg decoded => exact le_of_eq (updateProduct_counters s idArg decoded).1.symm

theorem step_nextProductID_le (s : Store) (r : Request) :
    s.nextProductID ≤ (step s r).1.nextProductID := by
  cases r with
  | getUser idArg => exact le_refl _
  | createUser decoded now => exact le_of_eq (createUser_counters s decoded now).2.1.symm
  | updateUser idArg decoded => exact le_of_eq (updateUser_counters s idArg decoded).2.1.symm
  | deleteUser idArg => exact le_of_eq (deleteUser_counters s idArg).2.1.symm
  | getProduct idArg => exact le_refl _
  | createProduct decoded => exact (createProduct_counters s decoded).1
  | updateProduct idArg decoded =>
    exact le_of_eq (updateProduct_counters s idArg decoded).2.1.symm

theorem step_counters_le (s : Store) (r : Request) :
    (step s r).1.nextUserID ≤ s.nextUserID + 1 ∧
      (step s r).1.nextProductID ≤ s.nextProductID + 1 := by
  cases r with
  | getUser idArg => simp [step]
  | createUser decoded now =>
    have h := createUser_counters s decoded now
    refine ⟨?_, by simp only [step]; omega⟩
    cases decoded with
    | none => simp [step, createUser]
    | some user => by_cases hv : user.Name = "" ∨ user.Email = "" <;> simp [step, createUser, hv]
  | updateUser idArg decoded =>
    have h := updateUser_counters s idArg decoded
    simp only [step]
    omega
  | deleteUser idArg =>
    have h := deleteUser_counters s idArg
    simp only [step]
    omega
  | getProduct idArg => simp [step]
  | createProduct decoded =>
    have h := createProduct_counters s decoded
    refine ⟨by simp only [step]; omega, ?_⟩
    cases decoded with
    | none => simp [step, createProduct]
    | some product =>
      by_cases hv : product.Name = "" ∨ product.Price ≤ 0 <;> simp [step, createProduct, hv]
  | updateProduct idArg decoded =>
    have h := updateProduct_counters s idArg decoded
    simp only [step]
    omega

/-- The counters grow by at most one per request: after `n` requests on the seeded store
they are at most `3 + n` and `4 + n`, so they stay in the range of a 64-bit `int` on every
run of fewer than `2 ^ 63 - 4` requests. -/
theorem run_counters_le (rs : List Request) (s : Store) :
    (run s rs).nextUserID ≤ s.nextUserID + rs.length ∧
      (run s rs).nextProductID ≤ s.nextProductID + rs.length := by
  induction rs generalizing s with
  | nil => simp [run]
  | cons r rs ih =>
    have h1 := step_counters_le s r
    have h2 := ih (step s r).1
    simp only [run, List.length_cons, Nat.cast_add, Nat.cast_one]
    omega

theorem step_createdUserID (s : Store) (r : Request) (i : Int)
    (h : createdUserID r (step s r).2 = some i) :
    i = s.nextUserID ∧ (step s r).1.nextUserID = s.nextUserID + 1 := by
  cases r with
  | createUser decoded now =>
    cases decoded with
    | none => simp [createdUserID, step, createUser, sendError] at h
    | some user =>
      by_cases hv : user.Name = "" ∨ user.Email = ""
      · simp [createdUserID, step, createUser, sendError, hv] at h
      · simp [createdUserID, step, createUser, hv] at h
        simp [step, createUser, hv, h]
  | _ => simp [createdUserID] at h

theorem step_createdProductID (s : Store) (r : Request) (i : Int)
    (h : createdProductID r (step s r).2 = some i) :
    i = s.nextProductID ∧ (step s r).1.nextProductID = s.nextProductID + 1 := by
  cases r with
  | createProduct decoded =>
    cases decoded with
    | none => simp [createdProductID, step, createProduct, sendError] at h
    | some product =>
      by_cases hv : product.Name = "" ∨ product.Price ≤ 0
      · simp [createdProductID, step, createProduct, sendError, hv] at h
      · simp [createdProductID, step, createProduct, hv] at h
        simp [step, createProduct, hv, h]
  | _ => simp [createdProductID] at h

theorem createdUserIDs_sorted (rs : List Request) (s : Store) :
    (∀ i ∈ createdUserIDs s rs, s.nextUserID ≤ i) ∧
      List.Pairwise (fun a b => a < b) (createdUserIDs s rs) := by
  induction rs generalizing s with
  | nil => simp [createdUserIDs, responses]
  | cons r rs ih =>
    obtain ⟨ihge, ihpw⟩ := ih (step s r).1
    have hle := step_nextUserID_le s r
    rw [createdUserIDs_cons]
    cases hc : createdUserID r (step s r).2 with
    | none =>
      simp only [Option.toList, List.nil_append]
      exact ⟨fun i hi => le_trans hle (ihge i hi), ihpw⟩
    | some i =>
      obtain ⟨hi, hn⟩ := step_createdUserID s r i hc
      simp only [Option.toList, List.singleton_append, List.mem_cons, List.pairwise_cons]
      refine ⟨?_, ?_, ihpw⟩
      · rintro j (rfl | hj)
        · exact le_of_eq hi.symm
        · exact le_trans hle (ihge j hj)
      · intro j hj
        have := ihge j hj
        omega

theorem createdProductIDs_sorted (rs : List Request) (s : Store) :
    (∀ i ∈ createdProductIDs s rs, s.nextProductID ≤ i) ∧
      List.Pairwise (fun a b => a < b) (createdProductIDs s rs) := by
  induction rs generalizing s with
  | nil => simp [createdProductIDs, responses]
  | cons r rs ih =>
    obtain ⟨ihge, ihpw⟩ := ih (step s r).1
    have hle := step_nextProductID_le s r
    rw [createdProductIDs_cons]
    cases hc : createdProductID r (step s r).2 with
    | none =>
      simp only [Option.toList, List.nil_append]
      exact ⟨fun i hi => le_trans hle (ihge i hi), ihpw⟩
    | some i =>
      obtain ⟨hi, hn⟩ := step_createdProductID s r i hc
      simp only [Option.toList, List.singleton_append, List.mem_cons, List.pairwise_cons]
      refine ⟨?_, ?_, ihpw⟩
      · rintro j (rfl | hj)
        · exact le_of_eq hi.symm
        · exact le_trans hle (ihge j hj)
      · intro j hj
        have := ihge j hj
        omega

/-! ## Identifiers -/

/-- C1: along every sequence of requests served from the seeded store, for users and for
products alike, each identifier returned by an accepted create is greater than every key
of the seeded collection, and the identifiers returned by accepted creates are strictly
increasing in the order of the requests (whatever deletes, updates and rejected creates
lie in between), so none is returned twice. -/
theorem created_ids_strictly_increasing (t1 t2 : Time) (rs : List Request) :
    ((∀ k, (seeded t1 t2).users k ≠ none →
        ∀ i ∈ createdUserIDs (seeded t1 t2) rs, k < i) ∧
      List.Pairwise (fun a b => a < b) (createdUserIDs (seeded t1 t2) rs) ∧
      (createdUserIDs (seeded t1 t2) rs).Nodup) ∧
    ((∀ k, (seeded t1 t2).products k ≠ none →
        ∀ i ∈ createdProductIDs (seeded t1 t2) rs, k < i) ∧
      List.Pairwise (fun a b => a < b) (createdProductIDs (seeded t1 t2) rs) ∧
      (createdProductIDs (seeded t1 t2) rs).Nodup) := by
  have hinv := seeded_inv t1 t2
  obtain ⟨huge, hupw⟩ := createdUserIDs_sorted rs (seeded t1 t2)
  obtain ⟨hpge, hppw⟩ := createdProductIDs_sorted rs (seeded t1 t2)
  refine ⟨⟨?_, hupw, ?_⟩, ⟨?_, hppw, ?_⟩⟩
  · intro k hk i hi
    obtain ⟨u, hu⟩ := Option.ne_none_iff_exists'.mp hk
    have := (hinv.userKey k u hu).2.2
    have := huge i hi
    omega
  · exact hupw.imp (fun h => ne_of_lt h)
  · intro k hk i hi
    obtain ⟨p, hp⟩ := Option.ne_none_iff_exists'.mp hk
    have := (hinv.productKey k p hp).2.2
    have := hpge i hi
    omega
  · exact hppw.imp (fun h => ne_of_lt h)

/-- A run with an accepted create, a delete of the created user, a rejected create and
another accepted create hands out 3 and then 4: the deleted id 3 is not given again. -/
theorem created_ids_strictly_increasing_witness :
    createdUserIDs (seeded 10 20)
        [Request.createUser
           (some { ID := 0, Name := "Anna Verdi", Email := "anna@example.com",
                   CreatedAt := 0 }) 30,
         Request.deleteUser (some 3),
         Request.createUser
           (some { ID := 0, Name := "", Email := "nobody@example.com", CreatedAt := 0 }) 40,
         Request.createUser
           (some { ID := 0, Name := "Test User", Email := "test@example.com",
                   CreatedAt := 0 }) 50] = [3, 4] ∧
      List.Pairwise (fun a b => a < b)
        (createdUserIDs (seeded 10 20)
          [Request.createUser
             (some { ID := 0, Name := "Anna Verdi", Email := "anna@example.com",
                     CreatedAt := 0 }) 30,
           Request.deleteUser (some 3),
           Request.createUser
             (some { ID := 0, Name := "", Email := "nobody@example.com", CreatedAt := 0 }) 40,
           Request.createUser
             (some { ID := 0, Name := "Test User", Email := "test@example.com",
                     CreatedAt := 0 }) 50]) :=
  ⟨by
    simp [createdUserIDs, createdUserID, responses, step, createUser, deleteUser, sendError,
      seeded, initData, StatusCreated, StatusBadRequest, StatusNoContent],
   (created_ids_strictly_increasing 10 20 _).1.2.1⟩

/-! ## Users: update and delete -/

/-- C3: for a stored user and any decoded payload, whatever `id` and `created_at` the
payload carries, `updateUser` answers 200 with the merged user and stores it: the name is
the payload name when that is non-empty and the old name otherwise, likewise the email,
and the id and the creation instant are the old ones.  Every other user, the id counters
and the products are unchanged. -/
theorem updateUser_merges (s : Store) (id : Int) (user updateData : User)
    (h : s.users id = some user) :
    (updateUser s (some id) (some updateData)).2 =
        { status := 200,
          body := Body.user
            { ID := user.ID,
              Name := if updateData.Name ≠ "" then updateData.Name else user.Name,
              Email := if updateData.Email ≠ "" then updateData.Email else user.Email,
              CreatedAt := user.CreatedAt } } ∧
      (updateUser s (some id) (some updateData)).1.users id =
        some
          { ID := user.ID,
            Name := if updateData.Name ≠ "" then updateData.Name else user.Name,
            Email := if updateData.Email ≠ "" then updateData.Email else user.Email,
            CreatedAt := user.CreatedAt } ∧
      (∀ k, k ≠ id → (updateUser s (some id) (some updateData)).1.users k = s.users k) ∧
      (updateUser s (some id) (some updateData)).1.nextUserID = s.nextUserID ∧
      (updateUser s (some id) (some updateData)).1.products = s.products ∧
      (updateUser s (some id) (some updateData)).1.nextProductID = s.nextProductID := by
  refine ⟨?_, ?_, ?_, ?_, ?_, ?_⟩
  · simp only [updateUser, h, StatusOK]
    by_cases hn : updateData.Name = "" <;> by_cases he : updateData.Email = "" <;>
      simp [hn, he]
  · simp only [updateUser, h, Function.update_same]
    by_cases hn : updateData.Name = "" <;> by_cases he : updateData.Email = "" <;>
      simp [hn, he]
  · intro k hk
    simp only [updateUser, h, Function.update_noteq hk]
  · simp only [updateUser, h]
  · simp only [updateUser, h]
  · simp only [updateUser, h]

/-- On the seeded store, a payload with a foreign id and creation instant
and an empty name changes the email of user 1 only. -/
theorem updateUser_merges_witness :
    (seeded 10 20).users 1 =
        some { ID := 1, Name := "Mario Rossi", Email := "mario@example.com", CreatedAt := 10 } ∧
      (updateUser (seeded 10 20) (some 1)
          (some { ID := 99, Name := "", Email := "m.rossi@example.com", CreatedAt := 77 })).2 =
        { status := 200,
          body := Body.user
            { ID := 1, Name := "Mario Rossi", Email := "m.rossi@example.com",
              CreatedAt := 10 } } :=
  ⟨by simp [seeded, initData],
   by
    have h := (updateUser_merges (seeded 10 20) 1
      { ID := 1, Name := "Mario Rossi", Email := "mario@example.com", CreatedAt := 10 }
      { ID := 99, Name := "", Email := "m.rossi@example.com", CreatedAt := 77 }
      (by simp [seeded, initData])).1
    simpa using h⟩

/-- C4: `deleteUser` on a stored id answers 204, after which `getUser` for that id answers
404, a second `deleteUser` for it answers 404, and the other users and the id counter are
as before; on an id that is not stored it answers 404 and leaves the store as it is. -/
theorem deleteUser_then_not_found (s : Store) (id : Int) :
    (s.users id ≠ none →
        (deleteUser s (some id)).2.status = 204 ∧
        (getUser (deleteUser s (some id)).1 (some id)).status = 404 ∧
        (∀ k, k ≠ id → (deleteUser s (some id)).1.users k = s.users k) ∧
        (deleteUser s (some id)).1.nextUserID = s.nextUserID ∧
        (deleteUser (deleteUser s (some id)).1 (some id)).2.status = 404) ∧
      (s.users id = none →
        (deleteUser s (some id)).2.status = 404 ∧ (deleteUser s (some id)).1 = s) := by
  constructor
  · intro h
    obtain ⟨u, hu⟩ := Option.ne_none_iff_exists'.mp h
    refine ⟨?_, ?_, ?_, ?_, ?_⟩
    · simp [deleteUser, hu, StatusNoContent]
    · simp [deleteUser, hu, getUser, sendError, StatusNotFound]
    · intro k hk
      simp [deleteUser, hu, Function.update_noteq hk]
    · simp [deleteUser, hu]
    · simp [deleteUser, hu, sendError, StatusNotFound]
  · intro h
    simp [deleteUser, h, sendError, StatusNotFound]

/-- On the seeded store user 2 is stored and can be deleted once; id 7 was never
assigned. -/
theorem deleteUser_then_not_found_witness :
    ((deleteUser (seeded 10 20) (some 2)).2.status = 204 ∧
        (getUser (deleteUser (seeded 10 20) (some 2)).1 (some 2)).status = 404 ∧
        (deleteUser (deleteUser (seeded 10 20) (some 2)).1 (some 2)).2.status = 404) ∧
      (deleteUser (seeded 10 20) (some 7)).2.status = 404 :=
  ⟨by
    have h := (deleteUser_then_not_found (seeded 10 20) 2).1 (by simp [seeded, initData])
    exact ⟨h.1, h.2.1, h.2.2.2.2⟩,
   ((deleteUser_then_not_found (seeded 10 20) 7).2 (by simp [seeded, initData, initial])).1⟩

/-! ## Create -/

theorem createUser_rejected (s : Store) (user : User) (now : Time)
    (hv : user.Name = "" ∨ user.Email = "") :
    createUser s (some user) now =
      (s, sendError "Name and email are required" StatusBadRequest) := by
  simp [createUser, hv]

theorem createUser_accepted (s : Store) (user : User) (now : Time)
    (hv : ¬(user.Name = "" ∨ user.Email = "")) :
    createUser s (some user) now =
      ({ s with
          users := Function.update s.users s.nextUserID
            (some { ID := s.nextUserID, Name := user.Name, Email := user.Email,
                    CreatedAt := now }),
          nextUserID := s.nextUserID + 1 },
       { status := StatusCreated,
         body := Body.user { ID := s.nextUserID, Name := user.Name, Email := user.Email,
                             CreatedAt := now } }) := by
  simp [createUser, hv]

theorem createProduct_rejected (s : Store) (product : Product)
    (hv : product.Name = "" ∨ product.Price ≤ 0) :
    createProduct s (some product) =
      (s, sendError "Name and valid price are required" StatusBadRequest) := by
  simp [createProduct, hv]

theorem createProduct_accepted (s : Store) (product : Product)
    (hv : ¬(product.Name = "" ∨ product.Price ≤ 0)) :
    createProduct s (some product) =
      ({ s with
          products := Function.update s.products s.nextProductID
            (some { ID := s.nextProductID, Name := product.Name, Price := product.Price,
                    Stock := product.Stock }),
          nextProductID := s.nextProductID + 1 },
       { status := StatusCreated,
         body := Body.product { ID := s.nextProductID, Name := product.Name,
                                Price := product.Price, Stock := product.Stock } }) := by
  simp [createProduct, hv]

/-- C5: in a reachable store and for a decoded payload, `createUser` answers 400 exactly
when the name or the email is empty, and `createProduct` answers 400 exactly when the name
is empty or the price is at most 0.  A rejected create leaves the store as it is.  An
accepted create answers 201, puts an entry under the key of the counter, which held none
before, leaves every other key as it was, and advances the counter by one. -/
theorem create_validates (s : Store) (hs : Reachable s) (user : User) (now : Time)
    (product : Product) :
    (((createUser s (some user) now).2.status = 400 ↔ (user.Name = "" ∨ user.Email = "")) ∧
      ((user.Name = "" ∨ user.Email = "") → (createUser s (some user) now).1 = s) ∧
      (¬(user.Name = "" ∨ user.Email = "") →
        (createUser s (some user) now).2.status = 201 ∧
        s.users s.nextUserID = none ∧
        (createUser s (some user) now).1.users s.nextUserID ≠ none ∧
        (∀ k, k ≠ s.nextUserID → (createUser s (some user) now).1.users k = s.users k) ∧
        (createUser s (some user) now).1.nextUserID = s.nextUserID + 1)) ∧
    (((createProduct s (some product)).2.status = 400 ↔
        (product.Name = "" ∨ product.Price ≤ 0)) ∧
      ((product.Name = "" ∨ product.Price ≤ 0) → (createProduct s (some product)).1 = s) ∧
      (¬(product.Name = "" ∨ product.Price ≤ 0) →
        (createProduct s (some product)).2.status = 201 ∧
        s.products s.nextProductID = none ∧
        (createProduct s (some product)).1.products s.nextProductID ≠ none ∧
        (∀ k, k ≠ s.nextProductID →
          (createProduct s (some product)).1.products k = s.products k) ∧
        (createProduct s (some product)).1.nextProductID = s.nextProductID + 1)) := by
  have hinv := reachable_inv s hs
  have hufree : s.users s.nextUserID = none := by
    cases hu : s.users s.nextUserID with
    | none => rfl
    | some u => exact absurd (hinv.userKey _ u hu).2.2 (lt_irrefl _)
  have hpfree : s.products s.nextProductID = none := by
    cases hp : s.products s.nextProductID with
    | none => rfl
    | some q => exact absurd (hinv.productKey _ q hp).2.2 (lt_irrefl _)
  refine ⟨⟨?_, ?_, ?_⟩, ⟨?_, ?_, ?_⟩⟩
  · by_cases hv : user.Name = "" ∨ user.Email = ""
    · simp [createUser_rejected s user now hv, sendError, StatusBadRequest, hv]
    · simp [createUser_accepted s user now hv, StatusCreated, hv]
  · intro hv
    rw [createUser_rejected s user now hv]
  · intro hv
    rw [createUser_accepted s user now hv]
    refine ⟨by simp [StatusCreated], hufree, by simp, ?_, by simp⟩
    intro k hk
    simp [Function.update_noteq hk]
  · by_cases hv : product.Name = "" ∨ product.Price ≤ 0
    · simp [createProduct_rejected s product hv, sendError, StatusBadRequest, hv]
    · simp only [createProduct_accepted s product hv, StatusCreated, hv, iff_false]
      decide
  · intro hv
    rw [createProduct_rejected s product hv]
  · intro hv
    rw [createProduct_accepted s product hv]
    refine ⟨by simp [StatusCreated], hpfree, by simp, ?_, by simp⟩
    intro k hk
    simp [Function.update_noteq hk]

/-- On the seeded store, a user payload without email is rejected and a
product payload with a name and a positive price is stored under key 4. -/
theorem create_validates_witness :
    Reachable (seeded 10 20) ∧
      (createUser (seeded 10 20)
          (some { ID := 0, Name := "Anna Verdi", Email := "", CreatedAt := 0 }) 30).2.status
        = 400 ∧
      (createProduct (seeded 10 20)
          (some { ID := 0, Name := "Monitor", Price := 199, Stock := 4 })).2.status = 201 ∧
      (createProduct (seeded 10 20)
          (some { ID := 0, Name := "Monitor", Price := 199, Stock := 4 })).1.nextProductID
        = 4 + 1 :=
  ⟨⟨10, 20, [], rfl⟩,
   ((create_validates (seeded 10 20) ⟨10, 20, [], rfl⟩
      { ID := 0, Name := "Anna Verdi", Email := "", CreatedAt := 0 } 30
      { ID := 0, Name := "Monitor", Price := 199, Stock := 4 }).1.1).mpr (Or.inr rfl),
   ((create_validates (seeded 10 20) ⟨10, 20, [], rfl⟩
      { ID := 0, Name := "Anna Verdi", Email := "", CreatedAt := 0 } 30
      { ID := 0, Name := "Monitor", Price := 199, Stock := 4 }).2.2.2
        (not_or.mpr ⟨by decide, by norm_num⟩)).1,
   ((create_validates (seeded 10 20) ⟨10, 20, [], rfl⟩
      { ID := 0, Name := "Anna Verdi", Email := "", CreatedAt := 0 } 30
      { ID := 0, Name := "Monitor", Price := 199, Stock := 4 }).2.2.2
        (not_or.mpr ⟨by decide, by norm_num⟩)).2.2.2.2⟩

/-- C6: in any store (a reachable one in particular), when `createUser` is given a payload
with a non-empty name and email it answers 201 with a user `r`, and `getUser` for the id of
`r` in the resulting store answers 200 with `r`, whose name and email are those of the
payload whatever id the payload carried; likewise `createProduct` with a non-empty name
and a positive price, `getProduct`, and the name, price and stock. -/
theorem create_then_get (s : Store) :
    (∀ (user : User) (now : Time), user.Name ≠ "" → user.Email ≠ "" →
      ∃ r : User,
        (createUser s (some user) now).2 = { status := 201, body := Body.user r } ∧
        getUser (createUser s (some user) now).1 (some r.ID) =
          { status := 200, body := Body.user r } ∧
        r.Name = user.Name ∧ r.Email = user.Email) ∧
    (∀ product : Product, product.Name ≠ "" → 0 < product.Price →
      ∃ r : Product,
        (createProduct s (some product)).2 = { status := 201, body := Body.product r } ∧
        getProduct (createProduct s (some product)).1 (some r.ID) =
          { status := 200, body := Body.product r } ∧
        r.Name = product.Name ∧ r.Price = product.Price ∧ r.Stock = product.Stock) := by
  constructor
  · intro user now hn he
    have hv : ¬(user.Name = "" ∨ user.Email = "") := not_or.mpr ⟨hn, he⟩
    refine ⟨{ ID := s.nextUserID, Name := user.Name, Email := user.Email,
              CreatedAt := now }, ?_, ?_, rfl, rfl⟩
    · rw [createUser_accepted s user now hv]
      rfl
    · rw [createUser_accepted s user now hv]
      simp [getUser, StatusOK]
  · intro product hn hp
    have hv : ¬(product.Name = "" ∨ product.Price ≤ 0) := not_or.mpr ⟨hn, not_le.mpr hp⟩
    refine ⟨{ ID := s.nextProductID, Name := product.Name, Price := product.Price,
              Stock := product.Stock }, ?_, ?_, rfl, rfl, rfl⟩
    · rw [createProduct_accepted s product hv]
      rfl
    · rw [createProduct_accepted s product hv]
      simp [getProduct, StatusOK]

/-- On the seeded store, a user payload that carries id 42 is stored under
id 3 and read back. -/
theorem create_then_get_witness :
    ∃ r : User,
      (createUser (seeded 10 20)
          (some { ID := 42, Name := "Anna Verdi", Email := "anna@example.com",
                  CreatedAt := 0 }) 30).2 = { status := 201, body := Body.user r } ∧
      getUser (createUser (seeded 10 20)
          (some { ID := 42, Name := "Anna Verdi", Email := "anna@example.com",
                  CreatedAt := 0 }) 30).1 (some r.ID) =
        { status := 200, body := Body.user r } ∧
      r.Name = "Anna Verdi" ∧ r.Email = "anna@example.com" :=
  (create_then_get (seeded 10 20)).1
    { ID := 42, Name := "Anna Verdi", Email := "anna@example.com", CreatedAt := 0 } 30
    (by decide) (by decide)

/-- C8: on the seeded store, `createUser` with name "Test User" and email
"test@example.com" answers 201 with id 3, `deleteUser` for 3 then answers 204 and
`getUser` for 3 then answers 404.  In every reachable store, `createUser` with a non-empty
name and email answers 201 with a user whose id is not 0, and `deleteUser` for that id in
the resulting store answers 204. -/
theorem create_then_delete_user :
    (∀ (t1 t2 now : Time) (i : Int) (c : Time),
      (createUser (seeded t1 t2)
          (some { ID := i, Name := "Test User", Email := "test@example.com",
                  CreatedAt := c }) now).2 =
        { status := 201,
          body := Body.user { ID := 3, Name := "Test User", Email := "test@example.com",
                              CreatedAt := now } } ∧
      (deleteUser (createUser (seeded t1 t2)
          (some { ID := i, Name := "Test User", Email := "test@example.com",
                  CreatedAt := c }) now).1 (some 3)).2.status = 204 ∧
      (getUser (deleteUser (createUser (seeded t1 t2)
          (some { ID := i, Name := "Test User", Email := "test@example.com",
                  CreatedAt := c }) now).1 (some 3)).1 (some 3)).status = 404) ∧
    (∀ (s : Store) (user : User) (now : Time),
      Reachable s → user.Name ≠ "" → user.Email ≠ "" →
      ∃ r : User,
        (createUser s (some user) now).2 = { status := 201, body := Body.user r } ∧
        r.ID ≠ 0 ∧
        (deleteUser (createUser s (some user) now).1 (some r.ID)).2.status = 204) := by
  constructor
  · intro t1 t2 now i c
    have hv : ¬(("Test User" : String) = "" ∨ ("test@example.com" : String) = "") := by
      decide
    rw [createUser_accepted _ _ now hv]
    refine ⟨?_, ?_, ?_⟩
    · simp [seeded, initData, StatusCreated]
    · simp [seeded, initData, deleteUser, StatusNoContent]
    · simp [seeded, initData, deleteUser, getUser, sendError, StatusNotFound]
  · intro s user now hs hn he
    have hv : ¬(user.Name = "" ∨ user.Email = "") := not_or.mpr ⟨hn, he⟩
    have h3 := (reachable_inv s hs).userNext
    refine ⟨{ ID := s.nextUserID, Name := user.Name, Email := user.Email,
              CreatedAt := now }, ?_, ?_, ?_⟩
    · rw [createUser_accepted s user now hv]
      rfl
    · simp only [ne_eq]
      omega
    · rw [createUser_accepted s user now hv]
      simp [deleteUser, StatusNoContent]

/-- After one earlier create and delete the next user gets id 4, which is
not 0, and can be deleted. -/
theorem create_then_delete_user_witness :
    Reachable (run (seeded 10 20)
        [Request.createUser
           (some { ID := 0, Name := "Anna Verdi", Email := "anna@example.com",
                   CreatedAt := 0 }) 30,
         Request.deleteUser (some 3)]) ∧
      ∃ r : User,
        (createUser (run (seeded 10 20)
            [Request.createUser
               (some { ID := 0, Name := "Anna Verdi", Email := "anna@example.com",
                       CreatedAt := 0 }) 30,
             Request.deleteUser (some 3)])
          (some { ID := 0, Name := "Test User", Email := "test@example.com",
                  CreatedAt := 0 }) 40).2 = { status := 201, body := Body.user r } ∧
        r.ID ≠ 0 ∧
        (deleteUser (createUser (run (seeded 10 20)
            [Request.createUser
               (some { ID := 0, Name := "Anna Verdi", Email := "anna@example.com",
                       CreatedAt := 0 }) 30,
             Request.deleteUser (some 3)])
          (some { ID := 0, Name := "Test User", Email := "test@example.com",
                  CreatedAt := 0 }) 40).1 (some r.ID)).2.status = 204 :=
  ⟨⟨10, 20, _, rfl⟩,
   create_then_delete_user.2 _
     { ID := 0, Name := "Test User", Email := "test@example.com", CreatedAt := 0 } 40
     ⟨10, 20, _, rfl⟩ (by decide) (by decide)⟩

/-! ## Products: update -/

/-- C9: for a stored product and a payload whose name is empty, whose price is 0 and
whose stock is `n ≥ 0`, `updateProduct` answers 200 with the product in which only the
stock changed, to `n`, and stores it; on the seeded store, id 1 and stock 5 give
Laptop, 999.99, stock 5. -/
theorem updateProduct_stock_only :
    (∀ (s : Store) (id : Int) (product updateData : Product),
      s.products id = some product →
      updateData.Name = "" → updateData.Price = 0 → 0 ≤ updateData.Stock →
      (updateProduct s (some id) (some updateData)).2 =
          { status := 200,
            body := Body.product
              { ID := product.ID, Name := product.Name, Price := product.Price,
                Stock := updateData.Stock } } ∧
        (updateProduct s (some id) (some updateData)).1.products id =
          some { ID := product.ID, Name := product.Name, Price := product.Price,
                 Stock := updateData.Stock }) ∧
    (∀ (t1 t2 : Time) (i : Int),
      (updateProduct (seeded t1 t2) (some 1)
          (some { ID := i, Name := "", Price := 0, Stock := 5 })).2 =
        { status := 200,
          body := Body.product { ID := 1, Name := "Laptop", Price := 999.99, Stock := 5 } } ∧
      (updateProduct (seeded t1 t2) (some 1)
          (some { ID := i, Name := "", Price := 0, Stock := 5 })).1.products 1 =
        some { ID := 1, Name := "Laptop", Price := 999.99, Stock := 5 }) := by
  have key : ∀ (s : Store) (id : Int) (product updateData : Product),
      s.products id = some product →
      updateData.Name = "" → updateData.Price = 0 → 0 ≤ updateData.Stock →
      (updateProduct s (some id) (some updateData)).2 =
          { status := 200,
            body := Body.product
              { ID := product.ID, Name := product.Name, Price := product.Price,
                Stock := updateData.Stock } } ∧
        (updateProduct s (some id) (some updateData)).1.products id =
          some { ID := product.ID, Name := product.Name, Price := product.Price,
                 Stock := updateData.Stock } := by
    intro s id product updateData h hn hp hs
    constructor
    · simp [updateProduct, h, hn, hp, hs, StatusOK]
    · simp [updateProduct, h, hn, hp, hs]
  refine ⟨key, ?_⟩
  intro t1 t2 i
  exact key (seeded t1 t2) 1 { ID := 1, Name := "Laptop", Price := 999.99, Stock := 10 }
    { ID := i, Name := "", Price := 0, Stock := 5 } (by simp [seeded, initData]) rfl rfl
    (by simp)

/-- On the seeded store, a payload that supplies stock 7 for product 2. -/
theorem updateProduct_stock_only_witness :
    (seeded 10 20).products 2 =
        some { ID := 2, Name := "Mouse", Price := 29.99, Stock := 50 } ∧
      (updateProduct (seeded 10 20) (some 2)
          (some { ID := 0, Name := "", Price := 0, Stock := 7 })).2 =
        { status := 200,
          body := Body.product { ID := 2, Name := "Mouse", Price := 29.99, Stock := 7 } } :=
  ⟨by simp [seeded, initData],
   (updateProduct_stock_only.1 (seeded 10 20) 2
      { ID := 2, Name := "Mouse", Price := 29.99, Stock := 50 }
      { ID := 0, Name := "", Price := 0, Stock := 7 }
      (by simp [seeded, initData]) rfl rfl (by decide)).1⟩

theorem updateProduct_stored (s : Store) (id : Int) (product updateData : Product)
    (h : s.products id = some product) :
    (updateProduct s (some id) (some updateData)).1.products id =
      some
        { ID := product.ID,
          Name := if updateData.Name ≠ "" then updateData.Name else product.Name,
          Price := if updateData.Price > 0 then updateData.Price else product.Price,
          Stock := if updateData.Stock ≥ 0 then updateData.Stock else product.Stock } := by
  simp only [updateProduct, h, Function.update_same]
  by_cases hn : updateData.Name = "" <;> by_cases hp : updateData.Price > 0 <;>
    by_cases hs : updateData.Stock ≥ 0 <;> simp [hn, hp, hs]

/-- A payload without name and price leaves the stored name and price as they were. -/
theorem updateProduct_keeps_name_price (s : Store) (id : Int) (product updateData : Product)
    (h : s.products id = some product) :
    ∃ q : Product, (updateProduct s (some id) (some updateData)).1.products id = some q ∧
      (updateData.Name = "" → q.Name = product.Name) ∧
      (updateData.Price = 0 → q.Price = product.Price) := by
  refine ⟨_, updateProduct_stored s id product updateData h, ?_, ?_⟩
  · intro hn
    simp [hn]
  · intro hp
    simp [hp]

/-- A payload without stock, decoded as stock 0, sets the stored stock to 0. -/
theorem updateProduct_omitted_stock (s : Store) (id : Int) (product updateData : Product)
    (h : s.products id = some product) (hs : updateData.Stock = 0) :
    ∃ q : Product, (updateProduct s (some id) (some updateData)).1.products id = some q ∧
      q.Stock = 0 := by
  refine ⟨_, updateProduct_stored s id product updateData h, ?_⟩
  simp [hs]

/-- No `updateProduct` request makes a stock negative. -/
theorem updateProduct_stock_nonneg (s : Store) (idArg : Option Int) (decoded : Option Product)
    (h : ∀ k p, s.products k = some p → 0 ≤ p.Stock) :
    ∀ k p, (updateProduct s idArg decoded).1.products k = some p → 0 ≤ p.Stock := by
  cases idArg with
  | none => simpa [updateProduct] using h
  | some id =>
    cases hp : s.products id with
    | none => simpa [updateProduct, hp] using h
    | some product =>
      cases decoded with
      | none => simpa [updateProduct, hp] using h
      | some updateData =>
        intro k p hk
        by_cases hkk : k = id
        · subst hkk
          rw [updateProduct_stored s k product updateData hp] at hk
          simp only [Option.some.injEq] at hk
          subst hk
          have := h k product hp
          simp only
          split_ifs with hs
          · exact hs
          · exact this
        · simp only [updateProduct, hp, Function.update_noteq hkk] at hk
          exact h k p hk

/-- C2, the code at the failing input: on the seeded store product 1 has stock 10; an
`updateProduct` for id 1 whose payload supplies only the name "Laptop Pro", so that price
and stock are decoded as 0, answers 200 and stores the new name and the old price with
stock 0: the stock that the payload did not supply is not kept. -/
theorem updateProduct_name_only_resets_stock (t1 t2 : Time) :
    (seeded t1 t2).products 1 =
        some { ID := 1, Name := "Laptop", Price := 999.99, Stock := 10 } ∧
      (updateProduct (seeded t1 t2) (some 1)
          (some { ID := 0, Name := "Laptop Pro", Price := 0, Stock := 0 })).2.status = 200 ∧
      (updateProduct (seeded t1 t2) (some 1)
          (some { ID := 0, Name := "Laptop Pro", Price := 0, Stock := 0 })).1.products 1 =
        some { ID := 1, Name := "Laptop Pro", Price := 999.99, Stock := 0 } := by
  have h1 : (seeded t1 t2).products 1 =
      some { ID := 1, Name := "Laptop", Price := 999.99, Stock := 10 } := by
    simp [seeded, initData]
  refine ⟨h1, ?_, ?_⟩
  · simp [updateProduct, h1, StatusOK]
  · rw [updateProduct_stored _ 1 _ _ h1]
    simp

/-- C7, the code at the failing input: on the seeded store, `createProduct` with name "Gadget",
price 1 and stock -5 answers 201, and the store reached by that single request holds
product 4 with stock -5. -/
theorem createProduct_stores_negative_stock (t1 t2 : Time) :
    (createProduct (seeded t1 t2)
        (some { ID := 0, Name := "Gadget", Price := 1, Stock := -5 })).2.status = 201 ∧
      Reachable (run (seeded t1 t2)
        [Request.createProduct (some { ID := 0, Name := "Gadget", Price := 1, Stock := -5 })]) ∧
      (run (seeded t1 t2)
        [Request.createProduct (some { ID := 0, Name := "Gadget", Price := 1, Stock := -5 })]
        ).products 4 = some { ID := 4, Name := "Gadget", Price := 1, Stock := -5 } := by
  have hv : ¬(("Gadget" : String) = "" ∨ (1 : ℚ) ≤ 0) := not_or.mpr ⟨by decide, by norm_num⟩
  refine ⟨?_, ⟨t1, t2, _, rfl⟩, ?_⟩
  · rw [createProduct_accepted _ _ hv]
    simp [StatusCreated]
  · simp only [run, step]
    rw [createProduct_accepted _ _ hv]
    simp [seeded, initData]

/-! ## Required fields -/

/-- C10: in every store reachable from the seeded one by create, update and delete
requests, every stored user has a non-empty name and a non-empty email, and every stored
product has a non-empty name and a price greater than 0. -/
theorem required_fields_kept (s : Store) (hs : Reachable s) :
    (∀ k u, s.users k = some u → u.Name ≠ "" ∧ u.Email ≠ "") ∧
      (∀ k p, s.products k = some p → p.Name ≠ "" ∧ 0 < p.Price) :=
  ⟨(reachable_inv s hs).userFields, (reachable_inv s hs).productFields⟩

/-- After an update of user 1 whose payload has an empty name and an
empty email: the stored name and email are still the seeded ones. -/
theorem required_fields_kept_witness :
    Reachable (run (seeded 10 20)
        [Request.updateUser (some 1)
           (some { ID := 0, Name := "", Email := "", CreatedAt := 0 })]) ∧
      (run (seeded 10 20)
        [Request.updateUser (some 1)
           (some { ID := 0, Name := "", Email := "", CreatedAt := 0 })]).users 1 =
        some { ID := 1, Name := "Mario Rossi", Email := "mario@example.com",
               CreatedAt := 10 } ∧
      (("Mario Rossi" : String) ≠ "" ∧ ("mario@example.com" : String) ≠ "") :=
  have hl : (run (seeded 10 20)
        [Request.updateUser (some 1)
           (some { ID := 0, Name := "", Email := "", CreatedAt := 0 })]).users 1 =
        some { ID := 1, Name := "Mario Rossi", Email := "mario@example.com",
               CreatedAt := 10 } := by
    simp [run, step, updateUser, seeded, initData]
  ⟨⟨10, 20, _, rfl⟩, hl,
   (required_fields_kept _ ⟨10, 20, _, rfl⟩).1 1
     { ID := 1, Name := "Mario Rossi", Email := "mario@example.com", CreatedAt := 10 } hl⟩

end RestStore
